import Mathlib

/-!
Shallow embedding of the embedding-generation pipeline of
`generate_embeddings-orig.py` (MovieLens DiskANN demo), together with
theorems checking the specification's claims against it.

Python floats are modelled as rationals (`ℚ`) for the computable part of the
pipeline; the Euclidean-norm scaling step, which involves a square root, is
modelled over the reals (`ℝ`).
-/

namespace DiskannDemo

/-! ### Feature fuser (generate_movie_embeddings / generate_user_embeddings,
lines 100–111 and 228–240): concatenation, truncation/zero-padding to a target
length, then division by the Euclidean norm when that norm is positive. -/

/-- Sum of squares of a rational vector; `np.linalg.norm v` is its square root. -/
def sumSq (v : List ℚ) : ℚ := (v.map (fun x => x * x)).sum

/-- Python: `if len(v) > L: v[:L] else: np.pad(v, (0, L - len(v)))` — truncate to the
first `L` entries or right-pad with zeros to exactly `L`. -/
def padTruncate (L : ℕ) (v : List ℚ) : List ℚ :=
  if L < v.length then v.take L else v ++ List.replicate (L - v.length) 0

/-- Sum of squares of a real vector. -/
def sumSqR (v : List ℝ) : ℝ := (v.map (fun x => x * x)).sum

/-- Euclidean norm of a real vector (`np.linalg.norm`). -/
noncomputable def normR (v : List ℝ) : ℝ := Real.sqrt (sumSqR v)

/-- Python: `embedding_norm = np.linalg.norm(v); if embedding_norm > 0: v = v / embedding_norm`.
The guard `norm > 0` is expressed by the equivalent rational condition
`0 < sumSq v` (the square root of a nonnegative rational is positive iff the
rational is). -/
noncomputable def normalizeVec (v : List ℚ) : List ℝ :=
  if 0 < sumSq v then v.map (fun x => Rat.cast x / Real.sqrt (Rat.cast (sumSq v)))
  else v.map Rat.cast

/-- The fuser: concatenate the feature groups in declared order, truncate/pad
to 128 entries, then norm-scale.  This is the common tail of both embedders
(`np.concatenate` + the 128-reconciliation + normalization). -/
noncomputable def fuse (groups : List (List ℚ)) : List ℝ :=
  normalizeVec (padTruncate 128 groups.flatten)

/-! ### Numeric normalizers (generate_user_embeddings, lines 197–225). -/

/-- Python `x or d` on an optional numeric value: `None` and `0` are falsy. -/
def orQ (x : Option ℚ) (d : ℚ) : ℚ :=
  match x with
  | some v => if v = 0 then d else v
  | none => d

/-- Python: `age_normalized = (age - 18) / (73 - 18) if age else 0.5` — Python
truthiness: `None` and `0` both take the `else` branch. -/
def age_normalized : Option ℚ → ℚ
  | some v => if v = 0 then 1/2 else (v - 18) / (73 - 18)
  | none => 1/2

/-- Python: `gender_encoded = 1.0 if gender == 'M' else 0.0`. -/
def gender_encoded (gender : Option String) : ℚ :=
  if gender = some "M" then 1 else 0

/-- Python: `num_ratings = num_ratings or 0` then `min(num_ratings / 100.0, 1.0)`. -/
def num_ratings_feature (n : Option ℚ) : ℚ := min (orQ n 0 / 100) 1

/-- Python: `avg_rating = avg_rating or 2.5` then `(avg_rating - 1) / 4`. -/
def avg_rating_feature (r : Option ℚ) : ℚ := (orQ r (5/2) - 1) / 4

/-- Python: `rating_stddev = rating_stddev or 0` then `min(rating_stddev / 2.0, 1.0)`. -/
def rating_stddev_feature (s : Option ℚ) : ℚ := min (orQ s 0 / 2) 1

/-- Per-genre preference: `np.where(pd.isna(v), 2.5, v)` then `(v - 1) / 4` —
note this substitutes 2.5 only for a missing (SQL NULL) value, not for 0. -/
def genre_pref_feature (p : Option ℚ) : ℚ := (p.getD (5/2) - 1) / 4

/-! ### Occupation encoding (lines 186–188 and 205–208).
`occupations = list(set([user[3] for user in users if user[3]]))` — the
distinct truthy (present, non-empty) occupation strings;
`LabelEncoder().fit(occupations)` sorts them (`numpy.unique`), and
`transform([occ])[0]` is the index in that sorted class list. -/

/-- The distinct observed (truthy) occupations. -/
def occupations (users_occ : List (Option String)) : List String :=
  ((users_occ.filterMap id).filter (fun o => o ≠ "")).dedup

/-- The `LabelEncoder` classes: the observed occupations sorted lexicographically. -/
def occupation_classes (users_occ : List (Option String)) : List String :=
  (occupations users_occ).insertionSort (· ≤ ·)

/-- Python: `occupation_encoded = 0; if occupation and occupation in occupations:
occupation_encoded = occupation_encoder.transform([occupation])[0] / len(occupations)`. -/
def occupation_encoded (users_occ : List (Option String)) (occ : Option String) : ℚ :=
  match occ with
  | some o =>
    if o ≠ "" ∧ o ∈ occupations users_occ then
      ((occupation_classes users_occ).indexOf o : ℚ) / ((occupations users_occ).length : ℚ)
    else 0
  | none => 0

/-! ### Movie text and genre-flag features (generate_movie_embeddings,
lines 65–90). -/

/-- The `genre_names` list, in the declared order matching the boolean flag columns. -/
def genre_names : List String :=
  ["action", "adventure", "animation", "children", "comedy", "crime",
   "documentary", "drama", "fantasy", "film noir", "horror", "musical",
   "mystery", "romance", "sci-fi", "thriller", "war", "western"]

/-- Python: `[genre_names[j] for j, is_active in enumerate(genres) if is_active]`. -/
def active_genres (flags : List Bool) : List String :=
  (genre_names.zip flags).filterMap (fun p => if p.2 then some p.1 else none)

/-- Python: `' '.join(active_genres) if active_genres else 'general'`. -/
def genre_text (flags : List Bool) : String :=
  if active_genres flags = [] then "general"
  else " ".intercalate (active_genres flags)

/-- Python: `f"{title} {genre_text}"` — the string handed to `model.encode`. -/
def text_for_embedding (title : String) (flags : List Bool) : String :=
  title ++ " " ++ genre_text flags

/-- Python: `np.array(genres, dtype=float)` — the 0/1 genre flag group. -/
def genre_vector (flags : List Bool) : List ℚ :=
  flags.map (fun b => if b then 1 else 0)

/-! ### Batch runner (the per-entity loops of both generators, lines 71–130
and 190–259).  The loop is modelled generically: an entity list in fetch
order, an `embed` function returning `none` when the embed-or-persist body of
the `try` block raises, and a state tracking the uncommitted write buffer, the
committed writes, the `embeddings_generated` counter, the error-logged entity
ids, and the number of `conn.commit()` calls.  The periodic
`if (i + 1) % 100 == 0: conn.commit()` sits inside the `try` block after the
persist, so it runs only when entity `i` itself succeeded; the final
`conn.commit()` is unconditional. -/

structure RunState (ι V : Type) where
  buffer : List (ι × V)
  committed : List (ι × V)
  generated : ℕ
  failures : List ι
  commits : ℕ
deriving DecidableEq

variable {α ι V : Type}

/-- State at the start of a run. -/
def initState : RunState ι V := ⟨[], [], 0, [], 0⟩

/-- Models `conn.commit()`: the buffered writes become durable. -/
def commitState (s : RunState ι V) : RunState ι V :=
  { s with buffer := [], committed := s.committed ++ s.buffer,
           commits := s.commits + 1 }

/-- One iteration of the loop body for the entity at (0-based) index `i`:
on success buffer the write, bump `embeddings_generated`, and commit if
`(i + 1) % 100 == 0`; on an exception log the entity id and continue. -/
def processOne (embed : α → Option V) (getId : α → ι)
    (i : ℕ) (a : α) (s : RunState ι V) : RunState ι V :=
  match embed a with
  | some v =>
    let s' := { s with buffer := s.buffer ++ [(getId a, v)],
                       generated := s.generated + 1 }
    if (i + 1) % 100 = 0 then commitState s' else s'
  | none => { s with failures := s.failures ++ [getId a] }

/-- The loop from index `i` over the remaining entities. -/
def runFrom (embed : α → Option V) (getId : α → ι) :
    ℕ → List α → RunState ι V → RunState ι V
  | _, [], s => s
  | i, a :: as, s => runFrom embed getId (i + 1) as (processOne embed getId i a s)

/-- A whole run: loop over all entities, then the unconditional final
`conn.commit()`. -/
def run (embed : α → Option V) (getId : α → ι) (es : List α) : RunState ι V :=
  commitState (runFrom embed getId 0 es initState)

/-- The successful writes a run produces, in entity order. -/
def writes (embed : α → Option V) (getId : α → ι) (es : List α) : List (ι × V) :=
  es.filterMap (fun a => (embed a).map (fun v => (getId a, v)))

/-- The count printed by the end-of-run log line
`logger.info(f"Generated embeddings for {embeddings_generated} ...")`. -/
def endReport (s : RunState ι V) : ℕ := s.generated

/-- Apply a list of keyed writes to a store (`UPDATE ... SET embedding = v
WHERE id = k`, later writes winning). -/
def applyWrites [DecidableEq ι] (w : List (ι × V)) (st : ι → Option V) :
    ι → Option V :=
  w.foldl (fun st p => Function.update st p.1 (some p.2)) st

/-- Number of periodic (inside-the-`try`) commits the loop performs from
index `i` on: one for each position whose entity succeeded and whose 1-based
index is a multiple of 100. -/
def chunkCommits (embed : α → Option V) : ℕ → List α → ℕ
  | _, [] => 0
  | i, a :: as =>
    (if (embed a).isSome ∧ (i + 1) % 100 = 0 then 1 else 0)
      + chunkCommits embed (i + 1) as

/-- Loop invariant: the generated count, failure log, durable-plus-buffered
writes and commit count after running the loop from any state. -/
lemma runFrom_spec (embed : α → Option V) (getId : α → ι) :
    ∀ (es : List α) (i : ℕ) (s : RunState ι V),
      (runFrom embed getId i es s).generated
          = s.generated + es.countP (fun a => (embed a).isSome) ∧
      (runFrom embed getId i es s).failures
          = s.failures ++ (es.filter (fun a => (embed a).isNone)).map getId ∧
      (runFrom embed getId i es s).committed ++ (runFrom embed getId i es s).buffer
          = s.committed ++ (s.buffer ++ writes embed getId es) ∧
      (runFrom embed getId i es s).commits
          = s.commits + chunkCommits embed i es
  | [], i, s => by simp [runFrom, writes, chunkCommits]
  | a :: as, i, s => by
    cases h : embed a with
    | none =>
      obtain ⟨ih1, ih2, ih3, ih4⟩ := runFrom_spec embed getId as (i + 1)
        { s with failures := s.failures ++ [getId a] }
      have hstep : runFrom embed getId i (a :: as) s
          = runFrom embed getId (i + 1) as
              { s with failures := s.failures ++ [getId a] } := by
        simp [runFrom, processOne, h]
      rw [hstep]
      refine ⟨?_, ?_, ?_, ?_⟩ <;>
        simp [ih1, ih2, ih3, ih4, h, writes, chunkCommits,
          List.countP_cons, List.filter_cons, List.filterMap_cons]
    | some v =>
      by_cases hc : (i + 1) % 100 = 0
      · obtain ⟨ih1, ih2, ih3, ih4⟩ := runFrom_spec embed getId as (i + 1)
          { s with buffer := [],
                   committed := s.committed ++ (s.buffer ++ [(getId a, v)]),
                   generated := s.generated + 1, commits := s.commits + 1 }
        have hstep : runFrom embed getId i (a :: as) s
            = runFrom embed getId (i + 1) as
                { s with buffer := [],
                         committed := s.committed ++ (s.buffer ++ [(getId a, v)]),
                         generated := s.generated + 1,
                         commits := s.commits + 1 } := by
          simp [runFrom, processOne, h, hc, commitState]
        rw [hstep]
        refine ⟨?_, ?_, ?_, ?_⟩ <;>
          simp [ih1, ih2, ih3, ih4, h, hc, writes, chunkCommits,
            List.countP_cons, List.filter_cons, List.filterMap_cons] <;>
          omega
      · obtain ⟨ih1, ih2, ih3, ih4⟩ := runFrom_spec embed getId as (i + 1)
          { s with buffer := s.buffer ++ [(getId a, v)],
                   generated := s.generated + 1 }
        have hstep : runFrom embed getId i (a :: as) s
            = runFrom embed getId (i + 1) as
                { s with buffer := s.buffer ++ [(getId a, v)],
                         generated := s.generated + 1 } := by
          simp [runFrom, processOne, h, hc]
        rw [hstep]
        refine ⟨?_, ?_, ?_, ?_⟩ <;>
          simp [ih1, ih2, ih3, ih4, h, hc, writes, chunkCommits,
            List.countP_cons, List.filter_cons, List.filterMap_cons] <;>
          omega

/-- After the final commit the whole run's state is determined by the input
list alone. -/
lemma run_spec (embed : α → Option V) (getId : α → ι) (es : List α) :
    (run embed getId es).generated = es.countP (fun a => (embed a).isSome) ∧
    (run embed getId es).failures = (es.filter (fun a => (embed a).isNone)).map getId ∧
    (run embed getId es).committed = writes embed getId es ∧
    (run embed getId es).buffer = [] ∧
    (run embed getId es).commits = chunkCommits embed 0 es + 1 := by
  obtain ⟨h1, h2, h3, h4⟩ := runFrom_spec embed getId es 0 (initState (ι := ι) (V := V))
  refine ⟨?_, ?_, ?_, rfl, ?_⟩ <;>
    simp_all [run, commitState, initState]

/-- The last write a write list makes to a given key, if any. -/
def lastVal [DecidableEq ι] (w : List (ι × V)) (i : ι) : Option V :=
  match w with
  | [] => none
  | p :: t => (lastVal t i).elim (if p.1 = i then some p.2 else none) some

/-- A store after a write list: the last value written to the key, or the old
content where the list never writes. -/
lemma applyWrites_eq_lastVal [DecidableEq ι] :
    ∀ (w : List (ι × V)) (st : ι → Option V) (i : ι),
      applyWrites w st i = (lastVal w i).elim (st i) some
  | [], st, i => rfl
  | p :: t, st, i => by
    have ih := applyWrites_eq_lastVal t (Function.update st p.1 (some p.2)) i
    have hstep : applyWrites (p :: t) st
        = applyWrites t (Function.update st p.1 (some p.2)) := rfl
    rw [hstep, ih, lastVal]
    cases lastVal t i with
    | some v => simp
    | none =>
      by_cases hpi : p.1 = i
      · simp [Function.update, hpi]
      · simp [Function.update, hpi]
        exact fun hh => absurd hh.symm hpi

/-- Applying the same write list twice is the same as applying it once. -/
lemma applyWrites_idem [DecidableEq ι] (w : List (ι × V)) (st : ι → Option V) :
    applyWrites w (applyWrites w st) = applyWrites w st := by
  funext i
  rw [applyWrites_eq_lastVal, applyWrites_eq_lastVal]
  cases lastVal w i with
  | some v => simp
  | none => simp

/-! ### Fuser lemmas. -/

lemma sumSq_cons (a : ℚ) (t : List ℚ) : sumSq (a :: t) = a * a + sumSq t := by
  simp [sumSq]

lemma sumSqR_cons (a : ℝ) (t : List ℝ) : sumSqR (a :: t) = a * a + sumSqR t := by
  simp [sumSqR]

lemma sumSq_nonneg (v : List ℚ) : 0 ≤ sumSq v := by
  induction v with
  | nil => simp [sumSq]
  | cons a t ih => rw [sumSq_cons]; nlinarith [mul_self_nonneg a]

lemma padTruncate_length (L : ℕ) (v : List ℚ) : (padTruncate L v).length = L := by
  unfold padTruncate
  by_cases h : L < v.length
  · simp [h, Nat.le_of_lt h]
  · simp [h]; omega

lemma normalizeVec_length (v : List ℚ) : (normalizeVec v).length = v.length := by
  unfold normalizeVec
  by_cases h : 0 < sumSq v <;> simp [h]

/-- Sum of squares after dividing every entry by a constant. -/
lemma sumSqR_map_div (v : List ℚ) (c : ℝ) :
    sumSqR (v.map (fun x => Rat.cast x / c)) = ((sumSq v : ℚ) : ℝ) / (c * c) := by
  induction v with
  | nil => simp [sumSqR, sumSq]
  | cons a t ih =>
    rw [List.map_cons, sumSqR_cons, ih, sumSq_cons]
    push_cast
    rw [div_mul_div_comm, div_add_div_same]

lemma sumSqR_map_cast (v : List ℚ) :
    sumSqR (v.map (Rat.cast : ℚ → ℝ)) = ((sumSq v : ℚ) : ℝ) := by
  induction v with
  | nil => simp [sumSqR, sumSq]
  | cons a t ih =>
    rw [List.map_cons, sumSqR_cons, ih, sumSq_cons]
    push_cast
    ring

/-- When the pre-normalization vector is not all zero, the scaled vector has
Euclidean norm exactly 1. -/
lemma normR_normalizeVec (v : List ℚ) (h : 0 < sumSq v) :
    normR (normalizeVec v) = 1 := by
  have hcast : (0 : ℝ) < ((sumSq v : ℚ) : ℝ) := by exact_mod_cast h
  unfold normR normalizeVec
  rw [if_pos h, sumSqR_map_div, Real.mul_self_sqrt hcast.le,
    div_self hcast.ne', Real.sqrt_one]

lemma sumSq_replicate_zero (n : ℕ) : sumSq (List.replicate n (0 : ℚ)) = 0 := by
  simp [sumSq]

lemma sumSqR_replicate_zero (n : ℕ) : sumSqR (List.replicate n (0 : ℝ)) = 0 := by
  simp [sumSqR]

/-! ### Claim C1. -/

/-- Claim C1, amended: the fuser output always has length exactly 128 and the
fuser never fails; its norm is 1 whenever the concatenation restricted to the
first 128 positions (after truncation/padding) is not all zero, and when that
restriction is all zero the vector is left unchanged — but elements dropped by
truncation do not count, so "unless every input element was zero" must be read
of the surviving prefix. -/
theorem fuse_length_and_norm (groups : List (List ℚ)) :
    (fuse groups).length = 128 ∧
    (sumSq (padTruncate 128 groups.flatten) ≠ 0 → normR (fuse groups) = 1) ∧
    (sumSq (padTruncate 128 groups.flatten) = 0 →
      fuse groups = (padTruncate 128 groups.flatten).map Rat.cast) := by
  refine ⟨?_, ?_, ?_⟩
  · rw [fuse, normalizeVec_length, padTruncate_length]
  · intro h
    exact normR_normalizeVec _ (lt_of_le_of_ne (sumSq_nonneg _) (Ne.symm h))
  · intro h
    rw [fuse, normalizeVec, if_neg]
    rw [h]
    exact lt_irrefl 0

/-- Witness for C1 at the one-group input `[[1]]`. -/
theorem fuse_length_and_norm_witness :
    sumSq (padTruncate 128 ([[(1 : ℚ)]] : List (List ℚ)).flatten) ≠ 0 ∧
    (fuse [[(1 : ℚ)]]).length = 128 ∧ normR (fuse [[(1 : ℚ)]]) = 1 := by
  have hs : sumSq (padTruncate 128 ([[(1 : ℚ)]] : List (List ℚ)).flatten) = 1 := by
    have h1 : ([[(1 : ℚ)]] : List (List ℚ)).flatten = [1] := by simp
    rw [h1]
    unfold padTruncate
    rw [if_neg (by simp), List.singleton_append, sumSq_cons, sumSq_replicate_zero]
    norm_num
  exact ⟨by rw [hs]; norm_num, (fuse_length_and_norm [[(1 : ℚ)]]).1,
    (fuse_length_and_norm [[(1 : ℚ)]]).2.1 (by rw [hs]; norm_num)⟩

/-- Claim C1 as stated is false: for the single feature group consisting of
128 zeros followed by a 1, not every input element is zero, yet the
concatenation is truncated to the first 128 entries — all zero — so the fused
output has norm 0, not 1. -/
theorem fuse_norm_one_counterexample :
    (1 : ℚ) ∈ ([List.replicate 128 (0 : ℚ) ++ [1]] : List (List ℚ)).flatten ∧
    normR (fuse [List.replicate 128 (0 : ℚ) ++ [1]]) = 0 ∧
    normR (fuse [List.replicate 128 (0 : ℚ) ++ [1]]) ≠ 1 := by
  have hflat : ([List.replicate 128 (0 : ℚ) ++ [1]] : List (List ℚ)).flatten
      = List.replicate 128 (0 : ℚ) ++ [1] := by simp
  have hpt : padTruncate 128 (List.replicate 128 (0 : ℚ) ++ [1])
      = List.replicate 128 (0 : ℚ) := by
    unfold padTruncate
    rw [if_pos (by simp)]
    exact List.take_left' (by simp)
  have hnv : fuse [List.replicate 128 (0 : ℚ) ++ [1]]
      = List.replicate 128 (0 : ℝ) := by
    rw [fuse, hflat, hpt, normalizeVec,
      if_neg (by rw [sumSq_replicate_zero]; exact lt_irrefl 0)]
    simp
  refine ⟨by simp, ?_, ?_⟩
  · rw [hnv, normR, sumSqR_replicate_zero, Real.sqrt_zero]
  · rw [hnv, normR, sumSqR_replicate_zero, Real.sqrt_zero]
    norm_num

/-! ### Normalizer lemmas and claims C2, C3, C10. -/

lemma occupation_classes_perm (us : List (Option String)) :
    List.Perm (occupation_classes us) (occupations us) :=
  List.perm_insertionSort _ _

lemma mem_occupation_classes {us : List (Option String)} {o : String} :
    o ∈ occupation_classes us ↔ o ∈ occupations us :=
  (occupation_classes_perm us).mem_iff

lemma occupation_classes_length (us : List (Option String)) :
    (occupation_classes us).length = (occupations us).length :=
  (occupation_classes_perm us).length_eq

lemma occupation_encoded_bounds (us : List (Option String)) (occ : Option String) :
    0 ≤ occupation_encoded us occ ∧ occupation_encoded us occ ≤ 1 := by
  cases occ with
  | none => constructor <;> norm_num [occupation_encoded]
  | some o =>
    rw [occupation_encoded]
    by_cases h : o ≠ "" ∧ o ∈ occupations us
    · rw [if_pos h]
      have hmem : o ∈ occupation_classes us := mem_occupation_classes.mpr h.2
      have hidx : (occupation_classes us).indexOf o < (occupations us).length := by
        rw [← occupation_classes_length us]
        exact List.indexOf_lt_length.mpr hmem
      have hlen : 0 < ((occupations us).length : ℚ) := by
        have : 0 < (occupations us).length := List.length_pos_of_mem h.2
        exact_mod_cast this
      constructor
      · exact div_nonneg (by positivity) hlen.le
      · rw [div_le_one hlen]
        exact_mod_cast hidx.le
    · rw [if_neg h]
      exact ⟨le_refl 0, by norm_num⟩

/-- Claim C2 as stated is false: an age of 100 — above the declared range
[18, 73] — is normalized to (100-18)/(73-18) = 82/55 > 1; the age normalizer
does not clamp out-of-range values into [0, 1]. -/
theorem age_normalized_counterexample :
    age_normalized (some 100) = 82 / 55 ∧ ¬ age_normalized (some 100) ≤ 1 := by
  have h : age_normalized (some 100) = 82 / 55 := by norm_num [age_normalized]
  exact ⟨h, by rw [h]; norm_num⟩

/-- Claim C2, amended: every normalizer returns a value in [0, 1] for absent
inputs and for raw values inside the declared ranges (age in [18, 73], rating
values in [1, 5], counts and standard deviations nonnegative); gender and
occupation are bounded for every input; but a present numeric value outside
its declared range (e.g. an age below 18 or above 73) escapes [0, 1], since
the formulas do not clamp. -/
theorem normalizers_bounded (v n s r p : ℚ) (g : Option String)
    (us : List (Option String)) (occ : Option String) :
    (18 ≤ v → v ≤ 73 → 0 ≤ age_normalized (some v) ∧ age_normalized (some v) ≤ 1) ∧
    (0 ≤ age_normalized none ∧ age_normalized none ≤ 1) ∧
    (0 ≤ gender_encoded g ∧ gender_encoded g ≤ 1) ∧
    (0 ≤ occupation_encoded us occ ∧ occupation_encoded us occ ≤ 1) ∧
    (0 ≤ n → 0 ≤ num_ratings_feature (some n) ∧ num_ratings_feature (some n) ≤ 1) ∧
    (0 ≤ num_ratings_feature none ∧ num_ratings_feature none ≤ 1) ∧
    (1 ≤ r → r ≤ 5 → 0 ≤ avg_rating_feature (some r) ∧ avg_rating_feature (some r) ≤ 1) ∧
    (0 ≤ avg_rating_feature none ∧ avg_rating_feature none ≤ 1) ∧
    (0 ≤ s → 0 ≤ rating_stddev_feature (some s) ∧ rating_stddev_feature (some s) ≤ 1) ∧
    (0 ≤ rating_stddev_feature none ∧ rating_stddev_feature none ≤ 1) ∧
    (1 ≤ p → p ≤ 5 → 0 ≤ genre_pref_feature (some p) ∧ genre_pref_feature (some p) ≤ 1) ∧
    (0 ≤ genre_pref_feature none ∧ genre_pref_feature none ≤ 1) := by
  refine ⟨?_, ?_, ?_, occupation_encoded_bounds us occ, ?_, ?_, ?_, ?_, ?_, ?_, ?_, ?_⟩
  · intro h18 h73
    have hne : v ≠ 0 := by intro h; rw [h] at h18; norm_num at h18
    rw [age_normalized, if_neg hne]
    constructor
    · apply div_nonneg (by linarith) (by norm_num)
    · rw [div_le_one (by norm_num)]
      linarith
  · rw [age_normalized]; norm_num
  · rw [gender_encoded]
    by_cases h : g = some "M" <;> simp [h]
  · intro hn
    rw [num_ratings_feature, orQ]
    by_cases h : n = 0
    · simp [h]
    · rw [if_neg h]
      exact ⟨le_min (by positivity) (by norm_num), min_le_right _ _⟩
  · rw [num_ratings_feature, orQ]; norm_num
  · intro h1 h5
    have hne : r ≠ 0 := by intro h; rw [h] at h1; norm_num at h1
    rw [avg_rating_feature, orQ, if_neg hne]
    constructor
    · apply div_nonneg (by linarith) (by norm_num)
    · rw [div_le_one (by norm_num)]; linarith
  · rw [avg_rating_feature, orQ]; norm_num
  · intro hs
    rw [rating_stddev_feature, orQ]
    by_cases h : s = 0
    · simp [h]
    · rw [if_neg h]
      exact ⟨le_min (by positivity) (by norm_num), min_le_right _ _⟩
  · rw [rating_stddev_feature, orQ]; norm_num
  · intro h1 h5
    rw [genre_pref_feature, Option.getD_some]
    constructor
    · apply div_nonneg (by linarith) (by norm_num)
    · rw [div_le_one (by norm_num)]; linarith
  · rw [genre_pref_feature]; norm_num

/-- Witness for the amended C2 at in-range inputs. -/
theorem normalizers_bounded_witness :
    (18 ≤ (30 : ℚ)) ∧ ((30 : ℚ) ≤ 73) ∧ (0 ≤ (5 : ℚ)) ∧ (1 ≤ (3 : ℚ)) ∧
    ((3 : ℚ) ≤ 5) ∧ (0 ≤ (1 : ℚ)) ∧ (1 ≤ (4 : ℚ)) ∧ ((4 : ℚ) ≤ 5) ∧
    (0 ≤ age_normalized (some 30) ∧ age_normalized (some 30) ≤ 1) ∧
    (0 ≤ num_ratings_feature (some 5) ∧ num_ratings_feature (some 5) ≤ 1) ∧
    (0 ≤ avg_rating_feature (some 3) ∧ avg_rating_feature (some 3) ≤ 1) ∧
    (0 ≤ rating_stddev_feature (some 1) ∧ rating_stddev_feature (some 1) ≤ 1) ∧
    (0 ≤ genre_pref_feature (some 4) ∧ genre_pref_feature (some 4) ≤ 1) := by
  obtain ⟨h1, _, _, _, h5, _, h7, _, h9, _, h11, _⟩ :=
    normalizers_bounded 30 5 1 3 4 (some "M") [] none
  exact ⟨by norm_num, by norm_num, by norm_num, by norm_num, by norm_num,
    by norm_num, by norm_num, by norm_num,
    h1 (by norm_num) (by norm_num), h5 (by norm_num),
    h7 (by norm_num) (by norm_num), h9 (by norm_num),
    h11 (by norm_num) (by norm_num)⟩

/-- Claim C3: every normalizer returns its documented default on an absent
input — 0.5 for an unknown age, 0.375 for an unknown per-category rating
preference (2.5 substituted before the (v-1)/4 scaling), 0.0 for an unknown
occupation or gender, and 0 for an absent rating count or rating stddev. -/
theorem normalizer_defaults :
    age_normalized none = 1/2 ∧
    genre_pref_feature none = 3/8 ∧
    (∀ us : List (Option String), occupation_encoded us none = 0) ∧
    gender_encoded none = 0 ∧
    num_ratings_feature none = 0 ∧
    rating_stddev_feature none = 0 := by
  refine ⟨rfl, by norm_num [genre_pref_feature], fun us => rfl,
    by simp [gender_encoded], by norm_num [num_ratings_feature, orQ],
    by norm_num [rating_stddev_feature, orQ]⟩

/-- Claim C10: an age recorded as exactly 0 takes the same branch as an
absent age — Python truthiness makes `0` and `None` indistinguishable in
`age if age else 0.5` — so the normalizer returns the default 0.5 rather
than the formula value (0-18)/(73-18), which differs from 0.5. -/
theorem age_zero_treated_as_absent :
    age_normalized (some 0) = 1/2 ∧ age_normalized none = 1/2 ∧
    ((0 : ℚ) - 18) / (73 - 18) ≠ 1/2 := by
  refine ⟨by simp [age_normalized], rfl, by norm_num⟩

/-! ### Claim C8: occupation encoding. -/

lemma occupations_nodup (us : List (Option String)) : (occupations us).Nodup :=
  List.nodup_dedup _

/-- The sorted class list depends only on the set of observed occupations. -/
lemma occupation_classes_eq_of_mem_iff {u1 u2 : List (Option String)}
    (h : ∀ o, o ∈ occupations u1 ↔ o ∈ occupations u2) :
    occupation_classes u1 = occupation_classes u2 := by
  have hperm : List.Perm (occupations u1) (occupations u2) :=
    (List.perm_ext_iff_of_nodup (occupations_nodup u1) (occupations_nodup u2)).mpr h
  exact List.eq_of_perm_of_sorted
    (((occupation_classes_perm u1).trans hperm).trans (occupation_classes_perm u2).symm)
    (List.sorted_insertionSort _ _) (List.sorted_insertionSort _ _)

/-- Claim C8: a present, observed occupation is encoded as its integer rank in
the sorted universe of distinct observed occupations divided by the universe
size; an absent or never-seen occupation is encoded as 0; and the encoding is
stable — it depends only on the set of observed occupations, not on the order
in which they were encountered. -/
theorem occupation_encoding_spec (u1 u2 : List (Option String)) (o : String) :
    ((∀ s, s ∈ occupations u1 ↔ s ∈ occupations u2) →
      occupation_encoded u1 (some o) = occupation_encoded u2 (some o)) ∧
    (o ≠ "" → o ∈ occupations u1 →
      occupation_encoded u1 (some o)
        = ((occupation_classes u1).indexOf o : ℚ) / ((occupations u1).length : ℚ)) ∧
    (o ∉ occupations u1 → occupation_encoded u1 (some o) = 0) ∧
    occupation_encoded u1 none = 0 := by
  refine ⟨?_, ?_, ?_, rfl⟩
  · intro h
    have hperm : List.Perm (occupations u1) (occupations u2) :=
      (List.perm_ext_iff_of_nodup (occupations_nodup u1) (occupations_nodup u2)).mpr h
    have hcls := occupation_classes_eq_of_mem_iff h
    have hlen := hperm.length_eq
    rw [occupation_encoded, occupation_encoded]
    by_cases hc : o ≠ "" ∧ o ∈ occupations u1
    · rw [if_pos hc, if_pos ⟨hc.1, (h o).mp hc.2⟩, hcls, hlen]
    · rw [if_neg hc, if_neg (fun hh => hc ⟨hh.1, (h o).mpr hh.2⟩)]
  · intro hne hmem
    rw [occupation_encoded, if_pos ⟨hne, hmem⟩]
  · intro hmem
    rw [occupation_encoded, if_neg (fun hh => hmem hh.2)]

/-- Witness for C8: the universes observed in the orders ["b","a"] and
["a","b"] encode "b" identically, and a never-seen occupation encodes to 0. -/
theorem occupation_encoding_spec_witness :
    (∀ s, s ∈ occupations [some "b", some "a"] ↔ s ∈ occupations [some "a", some "b"]) ∧
    occupation_encoded [some "b", some "a"] (some "b")
      = occupation_encoded [some "a", some "b"] (some "b") ∧
    ("z" ∉ occupations [some "b", some "a"]) ∧
    occupation_encoded [some "b", some "a"] (some "z") = 0 := by
  have hmem : ∀ s, s ∈ occupations [some "b", some "a"]
      ↔ s ∈ occupations [some "a", some "b"] := by
    intro s
    have h1 : occupations [some "b", some "a"] = ["b", "a"] := by decide
    have h2 : occupations [some "a", some "b"] = ["a", "b"] := by decide
    rw [h1, h2]
    constructor <;> intro hs <;> simp at hs ⊢ <;> tauto
  have hz : "z" ∉ occupations [some "b", some "a"] := by decide
  exact ⟨hmem,
    (occupation_encoding_spec [some "b", some "a"] [some "a", some "b"] "b").1 hmem,
    hz,
    (occupation_encoding_spec [some "b", some "a"] [some "a", some "b"] "z").2.2.1 hz⟩

/-! ### Claim C9: text input and genre-flag group for an item. -/

/-- Claim C9: the string handed to the text collaborator is the title, a
space, and the space-joined names of the active category flags in the declared
18-category order, with "general" substituted when no flag is active; the
category-flags group is the flags cast to 0/1.  Checked on the "Toy Story"
example with exactly the animation and children flags active. -/
theorem movie_text_and_flags (title : String) (flags : List Bool) :
    (active_genres flags = [] → text_for_embedding title flags = title ++ " " ++ "general") ∧
    (∀ j : ℕ, (genre_vector flags)[j]? = flags[j]?.map (fun b => if b then (1 : ℚ) else 0)) ∧
    active_genres [false, false, true, true, false, false, false, false, false,
      false, false, false, false, false, false, false, false, false]
      = ["animation", "children"] ∧
    text_for_embedding "Toy Story" [false, false, true, true, false, false,
      false, false, false, false, false, false, false, false, false, false,
      false, false] = "Toy Story animation children" ∧
    genre_vector [false, false, true, true, false, false, false, false, false,
      false, false, false, false, false, false, false, false, false]
      = [0, 0, 1, 1, 0, 0, 0, 0, 0, 0, 0, 0, 0, 0, 0, 0, 0, 0] := by
  refine ⟨?_, ?_, by decide, by decide, by decide⟩
  · intro h
    rw [text_for_embedding, genre_text, if_pos h]
  · intro j
    simp [genre_vector]

/-- Witness for C9: with no genre flag active the text is the title followed
by " general". -/
theorem movie_text_and_flags_witness :
    active_genres (List.replicate 18 false) = [] ∧
    text_for_embedding "Unknown" (List.replicate 18 false) = "Unknown general" := by
  have h : active_genres (List.replicate 18 false) = [] := by decide
  exact ⟨h, ((movie_text_and_flags "Unknown" (List.replicate 18 false)).1 h).trans
    (by decide)⟩

/-! ### Claims C4–C7: batch runner. -/

lemma countP_isSome_add_isNone (embed : α → Option V) (es : List α) :
    es.countP (fun a => (embed a).isSome) + es.countP (fun a => (embed a).isNone)
      = es.length := by
  induction es with
  | nil => simp
  | cons a as ih =>
    cases h : embed a <;> simp [List.countP_cons, h] <;> omega

/-- Claim C4: when exactly one entity's embed-or-persist step raises, the run
records that one entity as failed, continues, persists the vectors of all the
other entities, and ends with `embeddings_generated` equal to N-1 and one
logged failure. -/
theorem batch_failure_isolation (embed : α → Option V) (getId : α → ι)
    (es : List α) (h : es.countP (fun a => (embed a).isNone) = 1) :
    (run embed getId es).generated = es.length - 1 ∧
    (run embed getId es).failures.length = 1 ∧
    (run embed getId es).committed = writes embed getId es := by
  obtain ⟨h1, h2, h3, -, -⟩ := run_spec embed getId es
  have hcount := countP_isSome_add_isNone embed es
  refine ⟨?_, ?_, h3⟩
  · rw [h1]; omega
  · rw [h2, List.length_map, ← List.countP_eq_length_filter, h]

/-- Example `embed` collaborator for the C4 witness: entity 1 raises. -/
def embedC4 : ℕ → Option ℕ := fun n => if n = 1 then none else some n

/-- Witness for C4 on a three-entity run whose middle entity fails. -/
theorem batch_failure_isolation_witness :
    ([0, 1, 2] : List ℕ).countP (fun a => (embedC4 a).isNone) = 1 ∧
    (run embedC4 id [0, 1, 2]).generated = ([0, 1, 2] : List ℕ).length - 1 ∧
    (run embedC4 id [0, 1, 2]).failures.length = 1 ∧
    (run embedC4 id [0, 1, 2]).committed = writes embedC4 id [0, 1, 2] := by
  have h : ([0, 1, 2] : List ℕ).countP (fun a => (embedC4 a).isNone) = 1 := by decide
  obtain ⟨h1, h2, h3⟩ := batch_failure_isolation embedC4 id [0, 1, 2] h
  exact ⟨h, h1, h2, h3⟩

/-- Example `embed` collaborator for the C5 counterexample: entity 1 raises. -/
def embedC5 : ℕ → Option ℕ := fun n => if n = 1 then none else some n

/-- Claim C5 as stated is false: at the end of a run over [0, 1, 2] in which
entity 1 fails, the single count in the end-of-run report
(`Generated embeddings for {embeddings_generated} ...`) is the succeeded
count 2; the failed count (1) is not what is reported, and the run returns no
{succeeded, failed} pair — failures are only logged one by one as they
happen. -/
theorem run_report_counterexample :
    endReport (run embedC5 id [0, 1, 2]) = 2 ∧
    (run embedC5 id [0, 1, 2]).failures.length = 1 ∧
    endReport (run embedC5 id [0, 1, 2]) ≠ (run embedC5 id [0, 1, 2]).failures.length := by
  decide

/-- Claim C5, amended: the run's end-of-run report carries only the succeeded
count (`embeddings_generated`); the failures are recorded individually, per
entity, as the run goes, and no aggregate failed count is reported or
returned at run end. -/
theorem run_end_report (embed : α → Option V) (getId : α → ι) (es : List α) :
    endReport (run embed getId es) = es.countP (fun a => (embed a).isSome) ∧
    (run embed getId es).failures
      = (es.filter (fun a => (embed a).isNone)).map getId :=
  ⟨(run_spec embed getId es).1, (run_spec embed getId es).2.1⟩

/-- Example `embed` collaborator for the C6 counterexample: entity 99 — the
100th of the chunk — raises. -/
def embedC6 : ℕ → Option ℕ := fun n => if n = 99 then none else some n

/-- Claim C6 as stated is false: over 100 entities whose 100th (index 99)
fails, the periodic commit for that chunk is skipped — the `conn.commit()`
guarded by `(i + 1) % 100 == 0` sits inside the `try` block after the failing
step — so the loop performs zero commits, and only the final unconditional
commit runs (1 commit in total, where the claim predicts 2). -/
theorem checkpoint_commit_counterexample :
    (runFrom embedC6 id 0 (List.range 100) initState).commits = 0 ∧
    (run embedC6 id (List.range 100)).commits = 1 := by
  obtain ⟨-, -, -, h4⟩ := runFrom_spec embedC6 id (List.range 100) 0
    (initState (ι := ℕ) (V := ℕ))
  obtain ⟨-, -, -, -, h5⟩ := run_spec embedC6 id (List.range 100)
  have hc : chunkCommits embedC6 0 (List.range 100) = 0 := by decide
  constructor
  · rw [h4, hc]; rfl
  · rw [h5, hc]

/-- Claim C6, amended: the runner commits after a chunk of 100 entities only
when the 100th entity of that chunk itself succeeded (a chunk whose 100th
entity failed gets no periodic commit, its writes staying buffered until a
later commit), and it always commits once more, unconditionally, at the end
of the run, at which point every successful write is durable. -/
theorem checkpoint_commits (embed : α → Option V) (getId : α → ι) (es : List α) :
    (run embed getId es).commits = chunkCommits embed 0 es + 1 ∧
    (run embed getId es).committed = writes embed getId es :=
  ⟨(run_spec embed getId es).2.2.2.2, (run_spec embed getId es).2.2.1⟩

/-- Claim C7: the set of writes a run produces is a pure function of the raw
entity list and the embed collaborator — it does not read the store — and
re-applying the same run's writes to the store a second time leaves the store
unchanged, so two successive runs over unchanged raw data persist identical
vectors for every entity. -/
theorem run_idempotent [DecidableEq ι] (embed : α → Option V) (getId : α → ι)
    (es : List α) (st : ι → Option V) :
    applyWrites (run embed getId es).committed
        (applyWrites (run embed getId es).committed st)
      = applyWrites (run embed getId es).committed st ∧
    (run embed getId es).committed = writes embed getId es :=
  ⟨applyWrites_idem _ _, (run_spec embed getId es).2.2.1⟩

end DiskannDemo
